import Mathlib

/-!
Shallow embedding of the qupulse AWG driver core (`qupulse/hardware/awgs/base.py`)
and of the multi-channel waveform / pulse-template layer it is specified and
tested against (`tests/pulses/multi_channel_pulse_template_tests.py`).

Conventions:
  * Python object identity (`id(x)`) is modelled by an explicit `wfId : Nat` field.
  * The qupulse `Comparable` equality/hash protocol (equality and hashing are
    based on `compare_key`) is modelled by an explicit `compareKey : Nat` field;
    dictionary keying deduplicates by `compareKey`.
  * numpy arrays of voltages are `List ℚ`; boolean marker arrays are `List Bool`.
  * Python exceptions are modelled by `Option`/`Except`/explicit error components.
-/

/-- A waveform, modelled from the spec (the `Waveform` class itself is outside the
given sources): an immutable object with an object identity, a structural compare
key (driving `__eq__`/`__hash__` via `Comparable`), an exact rational duration, a
set of defined channels, and the ability to sample a channel on a time grid. -/
structure Waveform where
  wfId : Nat
  compareKey : Nat
  duration : ℚ
  channels : List String
  getSampled : String → List ℚ → List ℚ

/-- The program tree ("Loop"), modelled from the spec: a tree of repetition nodes
whose leaves carry waveforms; `get_depth_first_iterator` visits leaves left to
right. -/
inductive Loop where
  | leaf (waveform : Waveform)
  | node (children : List Loop)

mutual

/-- The waveforms of the leaves of a loop, in depth-first order
(`node.waveform for node in loop.get_depth_first_iterator() if node.is_leaf()`). -/
def Loop.leafWaveforms : Loop → List Waveform
  | .leaf wf => [wf]
  | .node cs => Loop.leafWaveformsOfList cs

/-- Depth-first leaf waveforms of a forest of loops. -/
def Loop.leafWaveformsOfList : List Loop → List Waveform
  | [] => []
  | l :: ls => Loop.leafWaveforms l ++ Loop.leafWaveformsOfList ls

end

/-- Insertion into an `OrderedDict` keyed by waveforms: Python dict keying uses
`__eq__`/`__hash__`, which for `Comparable` waveforms compare `compare_key`, so a
later waveform with the compare key of an earlier one is dropped and the first
occurrence order is kept. -/
def dedupByCompareKey : List Waveform → List Waveform
  | [] => []
  | w :: ws => w :: dedupByCompareKey (ws.filter (fun v => v.compareKey != w.compareKey))
termination_by l => l.length
decreasing_by
  exact Nat.lt_succ_of_le (List.length_filter_le _ _)

/-- Generic first-occurrence deduplication of a list of keys: keeps the first
occurrence of every key, in first-seen order. -/
def dedupKeepFirst : List Nat → List Nat
  | [] => []
  | k :: ks => k :: dedupKeepFirst (ks.filter (fun v => v != k))
termination_by l => l.length
decreasing_by
  exact Nat.lt_succ_of_le (List.length_filter_le _ _)

/-! ### AWG device abstraction (`AWG` in `base.py`) -/

/-- `AWGAmplitudeOffsetHandling.IGNORE_OFFSET`. -/
def AWGAmplitudeOffsetHandling.IGNORE_OFFSET : String := "ignore_offset"

/-- `AWGAmplitudeOffsetHandling.CONSIDER_OFFSET`. -/
def AWGAmplitudeOffsetHandling.CONSIDER_OFFSET : String := "consider_offset"

/-- `AWGAmplitudeOffsetHandling._valid` (the underscore of the source name is
dropped). -/
def AWGAmplitudeOffsetHandling.valid : List String :=
  [AWGAmplitudeOffsetHandling.IGNORE_OFFSET, AWGAmplitudeOffsetHandling.CONSIDER_OFFSET]

/-- The mutable state of an `AWG` instance set up by `AWG.__init__`:
`_identifier` and `_amplitude_offset_handling`. -/
structure AWG where
  identifier : String
  amplitudeOffsetHandling : String

/-- `AWG.__init__(self, identifier)`: stores the identifier and initializes
`_amplitude_offset_handling` to `AWGAmplitudeOffsetHandling.IGNORE_OFFSET`. -/
def AWG.init (identifier : String) : AWG :=
  { identifier := identifier
    amplitudeOffsetHandling := AWGAmplitudeOffsetHandling.IGNORE_OFFSET }

/-- The `amplitude_offset_handling` property setter: raises `ValueError` when the
value is not in `AWGAmplitudeOffsetHandling._valid` (leaving the state as it
was), otherwise stores the value. The result is the state after the call paired
with the raised error message, if any. -/
def AWG.setAmplitudeOffsetHandling (a : AWG) (value : String) : AWG × Option String :=
  if !(AWGAmplitudeOffsetHandling.valid.contains value) then
    (a, some (value ++ " is invalid as AWGAmplitudeOffsetHandling"))
  else
    ({ a with amplitudeOffsetHandling := value }, none)

/-! ### ProgramEntry (`ProgramEntry` in `base.py`) -/

/-- Modelled from the spec: the external time-grid utility `get_sample_times`
returns a shared time array and, per waveform, the number of valid grid points
(segment length) for the waveform duration at the given sample rate. -/
def getSampleTimes (waveforms : List Waveform) (sampleRate : ℚ) :
    List ℚ × List Nat :=
  let segmentLengths := waveforms.map (fun w => (w.duration * sampleRate).ceil.toNat)
  let maxLength := segmentLengths.foldr max 0
  ((List.range maxLength).map (fun i => (i : ℚ) / sampleRate), segmentLengths)

/-- `ProgramEntry._sample_waveforms`: for each waveform and its segment length,
for each hardware channel slot either `none` (no assigned source channel) or the
stored array produced by the loop body of the source: the source channel is
sampled, the voltage transform applied if present, the offset subtracted and the
result divided by the amplitude into the local `sampled`, and then
`waveform.get_sampled(channel, wf_time)` (a fresh raw sample) is appended to
`sampled_channels`, exactly as the source does.  Markers are sampled and
thresholded by comparison with zero. -/
def sampleWaveforms (channels markers : List (Option String))
    (amplitudes offsets : List ℚ)
    (voltageTransformations : List (Option (List ℚ → List ℚ)))
    (sampleRate : ℚ) (waveforms : List Waveform) :
    List (List (Option (List ℚ)) × List (Option (List Bool))) :=
  let grid := getSampleTimes waveforms sampleRate
  (waveforms.zip grid.2).map (fun p =>
    let waveform := p.1
    let wfTime := grid.1.take p.2
    let sampledChannels :=
      (channels.zip (voltageTransformations.zip (amplitudes.zip offsets))).map
        (fun q =>
          match q with
          | (none, _, _, _) => none
          | (some c, trafo, amplitude, offset) =>
            let sampled := waveform.getSampled c wfTime
            let sampled := match trafo with
              | some t => t sampled
              | none => sampled
            let sampled := sampled.map (fun s => s - offset)
            let _sampled := sampled.map (fun s => s / amplitude)
            some (waveform.getSampled c wfTime))
    let sampledMarkers :=
      markers.map (fun marker =>
        match marker with
        | none => none
        | some m => some ((waveform.getSampled m wfTime).map (fun s => decide (s ≠ 0))))
    (sampledChannels, sampledMarkers))

/-- Modelled from the spec: the stored sampled array the spec prescribes for an
assigned channel slot — sample the source channel at the grid, apply the voltage
transform if present, subtract the offset, divide by the amplitude. -/
def specProcessedSample (waveform : Waveform) (wfTime : List ℚ) (c : String)
    (trafo : Option (List ℚ → List ℚ)) (amplitude offset : ℚ) : List ℚ :=
  let sampled := waveform.getSampled c wfTime
  let sampled := match trafo with
    | some t => t sampled
    | none => sampled
  let sampled := sampled.map (fun s => s - offset)
  sampled.map (fun s => s / amplitude)

/-- The state built by `ProgramEntry.__init__`. -/
structure ProgramEntry where
  channels : List (Option String)
  markers : List (Option String)
  amplitudes : List ℚ
  offsets : List ℚ
  voltageTransformations : List (Option (List ℚ → List ℚ))
  sampleRate : ℚ
  loop : Loop
  waveforms : List (Waveform × (List (Option (List ℚ)) × List (Option (List Bool))))

/-- `ProgramEntry.__init__`: asserts
`len(channels) == len(amplitudes) == len(offsets) == len(voltage_transformations)`
(the markers tuple takes no part in the check), derives the waveform list from
the loop leaves by `OrderedDict` deduplication when `waveforms` is `None`, and
stores the waveforms zipped with their sampled data. A failed assert is `none`. -/
def mkProgramEntry (loop : Loop) (channels markers : List (Option String))
    (amplitudes offsets : List ℚ)
    (voltageTransformations : List (Option (List ℚ → List ℚ)))
    (sampleRate : ℚ) (waveforms : Option (List Waveform)) : Option ProgramEntry :=
  if channels.length == amplitudes.length && amplitudes.length == offsets.length
      && offsets.length == voltageTransformations.length then
    let wfs := match waveforms with
      | none => dedupByCompareKey loop.leafWaveforms
      | some ws => ws
    some { channels := channels
           markers := markers
           amplitudes := amplitudes
           offsets := offsets
           voltageTransformations := voltageTransformations
           sampleRate := sampleRate
           loop := loop
           waveforms := wfs.zip (sampleWaveforms channels markers amplitudes offsets
                                   voltageTransformations sampleRate wfs) }
  else
    none

/-- The waveform-identity mapping keys of a program entry, in stored order. -/
def ProgramEntry.waveformList (pe : ProgramEntry) : List Waveform :=
  pe.waveforms.map Prod.fst

/-! ### MultiChannelWaveform (modelled from the spec; the implementation module
`multi_channel_pulse_template.py` is outside the given sources, only its tests
are) -/

/-- A multi-channel waveform: an ordered collection of component waveforms. -/
structure MultiChannelWaveform where
  components : List Waveform

/-- Modelled from the spec: the components' defined-channel sets are pairwise
disjoint. -/
def channelsDisjoint : List Waveform → Bool
  | [] => true
  | w :: ws =>
    ws.all (fun v => w.channels.all (fun c => !(v.channels.contains c)))
      && channelsDisjoint ws

/-- Modelled from the spec: all components share exactly the same duration. -/
def equalDurations : List Waveform → Bool
  | [] => true
  | w :: ws => ws.all (fun v => v.duration == w.duration)

/-- Modelled from the spec: `MultiChannelWaveform(components)` raises a
`ValueError` on an empty collection, on overlapping component channels and on
unequal component durations, and otherwise stores the ordered components. -/
def mkMultiChannelWaveform (ws : List Waveform) : Option MultiChannelWaveform :=
  if ws.isEmpty then none
  else if !(channelsDisjoint ws) then none
  else if !(equalDurations ws) then none
  else some { components := ws }

/-- Modelled from the spec: `defined_channels` is the union of the components'
channel sets. -/
def MultiChannelWaveform.definedChannels (m : MultiChannelWaveform) : List String :=
  m.components.flatMap (fun w => w.channels)

/-- Modelled from the spec: the shared duration of the components. -/
def MultiChannelWaveform.duration (m : MultiChannelWaveform) : ℚ :=
  (m.components.head?.map (fun w => w.duration)).getD 0

/-- Modelled from the spec: the compare key of a `MultiChannelWaveform` is
structural over the ordered components' own compare keys. -/
def MultiChannelWaveform.mcwCompareKey (m : MultiChannelWaveform) : List Nat :=
  m.components.map (fun w => w.compareKey)

/-- Two channel lists denote the same channel set. -/
def sameChannelSet (a b : List String) : Bool :=
  a.all (fun c => b.contains c) && b.all (fun c => a.contains c)

/-- Modelled from the spec: `get_subset_for_channels` fails with a not-found
error naming the first missing channel when `channels` is not a subset of
`defined_channels`; it returns the single component itself when `channels`
exactly matches that component's channel set, and otherwise a new
`MultiChannelWaveform` over the matching components. -/
def MultiChannelWaveform.getSubsetForChannels (m : MultiChannelWaveform)
    (chans : List String) : Except String (Waveform ⊕ MultiChannelWaveform) :=
  match chans.find? (fun c => !(m.definedChannels.contains c)) with
  | some c => .error c
  | none =>
    match m.components.find? (fun w => sameChannelSet w.channels chans) with
    | some w => .ok (.inl w)
    | none =>
      .ok (.inr { components :=
        m.components.filter (fun w => w.channels.any (fun c => chans.contains c)) })

/-! ### MultiChannelPulseTemplate sequencing (modelled from the spec) -/

/-- Modelled from the spec: an (atomic, already channel- and parameter-mapped)
sub-template of a `MultiChannelPulseTemplate`, with its post-mapping defined
channels (its channel group) and the single leaf waveform its sequencing yields
under a concrete parameter binding. -/
structure STmpl where
  definedChannels : List String
  buildWaveform : List (String × ℚ) → Waveform

/-- One instruction of the emitted instruction sequence: either an
`EXECInstruction` holding one (multi-channel) waveform or a `CHANInstruction`
mapping each channel group to the index of a dedicated sub-block. -/
inductive MCInstruction where
  | execInstruction (waveform : MultiChannelWaveform)
  | chanInstruction (channelToSubBlock : List (List String × Nat))

/-- Modelled from the spec: `MultiChannelPulseTemplate.build_sequence` under a
concrete binding.  Each sub-template yields one leaf waveform; if those leaves
all have equal duration they are merged into one `MultiChannelWaveform` executed
by a single `EXECInstruction`, otherwise a single `CHANInstruction` routes each
channel group to a fresh sub-block whose sequencing stack holds exactly that
sub-template's request (the sub-template with the outer binding).  The result is
the emitted instruction list paired with the sub-block stacks. -/
def buildSequence (sts : List STmpl) (parameters : List (String × ℚ)) :
    List MCInstruction × List (List (STmpl × List (String × ℚ))) :=
  let leaves := sts.map (fun st => st.buildWaveform parameters)
  if equalDurations leaves then
    ([.execInstruction { components := leaves }], [])
  else
    ([.chanInstruction ((List.range sts.length).zip (sts.map STmpl.definedChannels)
        |>.map (fun p => (p.2, p.1)))],
     sts.map (fun st => [(st, parameters)]))

/-! ### External parameter validation (modelled from the spec) -/

/-- The mapping/declaration errors raised during composite template
construction. -/
inductive MCTError where
  | missingParameterDeclaration (name : String)
  | missingMapping (name : String)
deriving DecidableEq, Repr

/-- Modelled from the spec: the declared external parameter set must equal
exactly the union of the sub-templates' post-mapping parameter names plus the
names referenced by the parameter constraints; a used-but-undeclared name raises
`MissingParameterDeclarationException` and a declared-but-unused name raises
`MissingMappingException`. -/
def validateExternalParameters (mappedNames constraintNames external : List String) :
    Option MCTError :=
  match (mappedNames ++ constraintNames).find? (fun n => !(external.contains n)) with
  | some n => some (.missingParameterDeclaration n)
  | none =>
    match external.find? (fun n => !((mappedNames ++ constraintNames).contains n)) with
    | some n => some (.missingMapping n)
    | none => none

/-! ### requires_stop (modelled from the spec) -/

/-- Modelled from the spec: a sub-template as seen by
`MultiChannelPulseTemplate.requires_stop`: a parameter mapping (inner name to an
expression evaluated over the outer binding) and the inner template's
`requires_stop` over its own binding and the condition binding. -/
structure RsSubTemplate where
  paramMapping : List (String × (List (String × ℚ) → ℚ))
  requiresStopAt : List (String × ℚ) → List String → Bool

/-- Modelled from the spec: the inner parameter binding obtained by evaluating
each mapped expression over the outer binding. -/
def mapParameters (mapping : List (String × (List (String × ℚ) → ℚ)))
    (outer : List (String × ℚ)) : List (String × ℚ) :=
  mapping.map (fun p => (p.1, p.2 outer))

/-- Modelled from the spec: `MultiChannelPulseTemplate.requires_stop` is the
logical OR over the sub-templates, each evaluated with its mapped parameter
binding. -/
def multiChannelRequiresStop (sts : List RsSubTemplate)
    (parameters : List (String × ℚ)) (conditions : List String) : Bool :=
  sts.any (fun st => st.requiresStopAt (mapParameters st.paramMapping parameters) conditions)

/-! ### Helper lemmas -/

/-- Boolean list containment agrees with membership (over `String`). -/
theorem contains_iff_mem (l : List String) (a : String) :
    l.contains a = true ↔ a ∈ l := by
  simp [List.contains]

/-- When some element of a list satisfies a unique predicate, `find?` returns it. -/
theorem find?_eq_some_of_unique {α : Type} {p : α → Bool} {l : List α} {w : α}
    (hw : w ∈ l) (hp : p w = true) (huniq : ∀ v ∈ l, p v = true → v = w) :
    l.find? p = some w := by
  induction l with
  | nil => cases hw
  | cons v vs ih =>
    rcases List.mem_cons.mp hw with rfl | hw2
    · simp [List.find?_cons, hp]
    · by_cases hv : p v = true
      · have := huniq v (List.mem_cons_self _ _) hv
        subst this
        simp [List.find?_cons, hp]
      · rw [List.find?_cons_of_neg _ (by simpa using hv)]
        exact ih hw2 (fun u hu hpu => huniq u (List.mem_cons_of_mem _ hu) hpu)

/-- `channelsDisjoint` decides pairwise disjointness of the channel sets. -/
theorem channelsDisjoint_iff (ws : List Waveform) :
    channelsDisjoint ws = true
      ↔ ws.Pairwise (fun w v => ∀ c ∈ w.channels, c ∉ v.channels) := by
  induction ws with
  | nil => simp [channelsDisjoint]
  | cons w ws ih =>
    simp only [channelsDisjoint, Bool.and_eq_true, List.pairwise_cons, ih,
      List.all_eq_true, Bool.not_eq_true']
    constructor
    · rintro ⟨h1, h2⟩
      refine ⟨fun v hv c hc hmem => ?_, h2⟩
      have h := h1 v hv c hc
      have h' := (contains_iff_mem v.channels c).mpr hmem
      rw [h] at h'
      exact Bool.false_ne_true h'
    · rintro ⟨h1, h2⟩
      refine ⟨fun v hv c hc => ?_, h2⟩
      cases hb : v.channels.contains c with
      | false => rfl
      | true => exact absurd ((contains_iff_mem _ _).mp hb) (h1 v hv c hc)

/-- `equalDurations` decides that all list members share one duration. -/
theorem equalDurations_iff (ws : List Waveform) :
    equalDurations ws = true ↔ ∀ w ∈ ws, ∀ v ∈ ws, w.duration = v.duration := by
  cases ws with
  | nil => simp [equalDurations]
  | cons w ws =>
    simp only [equalDurations, List.all_eq_true, beq_iff_eq]
    constructor
    · intro h u hu v hv
      rcases List.mem_cons.mp hu with rfl | hu2 <;> rcases List.mem_cons.mp hv with rfl | hv2
      · rfl
      · exact (h v hv2).symm
      · exact h u hu2
      · exact (h u hu2).trans (h v hv2).symm
    · intro h v hv
      exact h v (List.mem_cons_of_mem _ hv) w (List.mem_cons_self _ _)

/-- In a pairwise channel-disjoint list, no channel belongs to two components at
distinct positions. -/
theorem no_shared_channel_of_pairwise {ws : List Waveform}
    (h : ws.Pairwise (fun w v => ∀ c ∈ w.channels, c ∉ v.channels))
    (i j : Fin ws.length) (hne : i ≠ j) (c : String)
    (hci : c ∈ (ws.get i).channels) (hcj : c ∈ (ws.get j).channels) : False := by
  have hget := List.pairwise_iff_get.mp h
  rcases Nat.lt_trichotomy i.val j.val with hlt | heq | hgt
  · exact (hget i j hlt c hci) hcj
  · exact hne (Fin.ext heq)
  · exact (hget j i hgt c hcj) hci

/-- The `OrderedDict` deduplication yields a sublist (entries come from the input,
in input order). -/
theorem dedupByCompareKey_sublist (l : List Waveform) :
    (dedupByCompareKey l).Sublist l := by
  induction l using dedupByCompareKey.induct with
  | case1 => simp [dedupByCompareKey]
  | case2 w ws ih =>
    rw [dedupByCompareKey]
    exact List.Sublist.cons₂ w (ih.trans (List.filter_sublist ws))

/-- After `OrderedDict` deduplication every compare key appears at most once. -/
theorem dedupByCompareKey_keys_nodup (l : List Waveform) :
    ((dedupByCompareKey l).map (fun w => w.compareKey)).Nodup := by
  induction l using dedupByCompareKey.induct with
  | case1 => simp [dedupByCompareKey]
  | case2 w ws ih =>
    rw [dedupByCompareKey, List.map_cons, List.nodup_cons]
    refine ⟨fun hmem => ?_, ih⟩
    obtain ⟨v, hv, hkey⟩ := List.mem_map.mp hmem
    have hv' := (dedupByCompareKey_sublist _).subset hv
    have hp := List.of_mem_filter hv'
    rw [bne_iff_ne] at hp
    exact hp hkey

/-- Unfolding equation for `dedupKeepFirst` on a cons cell. -/
theorem dedupKeepFirst_cons (k : Nat) (ks : List Nat) :
    dedupKeepFirst (k :: ks) = k :: dedupKeepFirst (ks.filter (fun v => v != k)) := by
  rw [dedupKeepFirst.eq_def]

/-- Mapping the compare key commutes with filtering on the compare key. -/
theorem map_key_filter (ws : List Waveform) (k : Nat) :
    (ws.filter (fun v => v.compareKey != k)).map (fun w => w.compareKey)
      = (ws.map (fun w => w.compareKey)).filter (fun v => v != k) := by
  induction ws with
  | nil => rfl
  | cons v vs ih =>
    by_cases h : (v.compareKey != k) = true
    · simp [List.filter_cons, h, ih]
    · have h' : (v.compareKey != k) = false := by simpa using h
      simp [List.filter_cons, h', ih]

/-- The compare-key sequence of the deduplicated waveform list is the
first-occurrence deduplication of the input's compare-key sequence. -/
theorem dedupByCompareKey_map_key (l : List Waveform) :
    (dedupByCompareKey l).map (fun w => w.compareKey)
      = dedupKeepFirst (l.map (fun w => w.compareKey)) := by
  induction l using dedupByCompareKey.induct with
  | case1 => simp [dedupByCompareKey, dedupKeepFirst]
  | case2 w ws ih =>
    rw [dedupByCompareKey, List.map_cons, List.map_cons, dedupKeepFirst_cons, ih,
      map_key_filter]

/-! ### Claim theorems -/

/-- C9: Every freshly constructed AWG instance has `amplitude_offset_handling`
equal to the `ignore_offset` mode; the constructor takes only an identifier,
stores it, and always initializes this default. -/
theorem C9_awg_init_default (identifier : String) :
    (AWG.init identifier).amplitudeOffsetHandling
        = AWGAmplitudeOffsetHandling.IGNORE_OFFSET
    ∧ (AWG.init identifier).identifier = identifier :=
  ⟨rfl, rfl⟩

/-- Witness for C9 at the concrete identifier "tabor". -/
theorem C9_awg_init_default_witness :
    (AWG.init "tabor").amplitudeOffsetHandling
        = AWGAmplitudeOffsetHandling.IGNORE_OFFSET
    ∧ (AWG.init "tabor").identifier = "tabor" :=
  C9_awg_init_default "tabor"

/-- C7: Setting `amplitude_offset_handling` succeeds exactly for the two defined
modes; on success the stored mode becomes the new value, and on a validation
error the previously stored mode (indeed the whole state) is left unchanged. -/
theorem C7_amplitude_offset_handling_setter (a : AWG) (value : String) :
    ((a.setAmplitudeOffsetHandling value).2 = none
      ↔ (value = AWGAmplitudeOffsetHandling.IGNORE_OFFSET
          ∨ value = AWGAmplitudeOffsetHandling.CONSIDER_OFFSET))
    ∧ ((a.setAmplitudeOffsetHandling value).2 = none →
        (a.setAmplitudeOffsetHandling value).1
          = { a with amplitudeOffsetHandling := value })
    ∧ (∀ e, (a.setAmplitudeOffsetHandling value).2 = some e →
        (a.setAmplitudeOffsetHandling value).1 = a) := by
  by_cases hc : AWGAmplitudeOffsetHandling.valid.contains value = true
  · have hv : value = AWGAmplitudeOffsetHandling.IGNORE_OFFSET
        ∨ value = AWGAmplitudeOffsetHandling.CONSIDER_OFFSET := by
      have hm := (contains_iff_mem _ _).mp hc
      simpa [AWGAmplitudeOffsetHandling.valid] using hm
    have hmem : value ∈ AWGAmplitudeOffsetHandling.valid := (contains_iff_mem _ _).mp hc
    have hres : a.setAmplitudeOffsetHandling value
        = ({ a with amplitudeOffsetHandling := value }, none) := by
      simp [AWG.setAmplitudeOffsetHandling, hmem]
    rw [hres]
    exact ⟨⟨fun _ => hv, fun _ => rfl⟩, fun _ => rfl, fun e he => Option.noConfusion he⟩
  · have hv : ¬(value = AWGAmplitudeOffsetHandling.IGNORE_OFFSET
        ∨ value = AWGAmplitudeOffsetHandling.CONSIDER_OFFSET) := by
      intro h
      exact hc ((contains_iff_mem _ _).mpr
        (by simpa [AWGAmplitudeOffsetHandling.valid] using h))
    have hmem : value ∉ AWGAmplitudeOffsetHandling.valid :=
      fun hm => hc ((contains_iff_mem _ _).mpr hm)
    have hres : a.setAmplitudeOffsetHandling value
        = (a, some (value ++ " is invalid as AWGAmplitudeOffsetHandling")) := by
      simp [AWG.setAmplitudeOffsetHandling, hmem]
    rw [hres]
    exact ⟨⟨fun h => Option.noConfusion h, fun h => absurd h hv⟩,
      fun h => Option.noConfusion h, fun e _ => rfl⟩

/-- Witness for C7: setting "consider_offset" succeeds and stores it; setting
the invalid value "garbage" errors and leaves the freshly initialized state
unchanged. -/
theorem C7_amplitude_offset_handling_setter_witness :
    ((AWG.init "x").setAmplitudeOffsetHandling "consider_offset").2 = none
    ∧ ((AWG.init "x").setAmplitudeOffsetHandling "consider_offset").1
        = { AWG.init "x" with amplitudeOffsetHandling := "consider_offset" }
    ∧ ((AWG.init "x").setAmplitudeOffsetHandling "garbage").1 = AWG.init "x" := by
  have hok := (C7_amplitude_offset_handling_setter (AWG.init "x") "consider_offset").1.mpr
    (Or.inr rfl)
  refine ⟨hok, (C7_amplitude_offset_handling_setter (AWG.init "x") "consider_offset").2.1 hok, ?_⟩
  exact (C7_amplitude_offset_handling_setter (AWG.init "x") "garbage").2.2
    ("garbage" ++ " is invalid as AWGAmplitudeOffsetHandling") rfl

/-- C10: `ProgramEntry` construction checks only that channels, amplitudes,
offsets and voltage transformations have equal lengths, aborting on mismatch;
the markers tuple (of any length whatsoever) takes no part in the check. -/
theorem C10_program_entry_length_check (loop : Loop)
    (channels markers : List (Option String)) (amplitudes offsets : List ℚ)
    (voltageTransformations : List (Option (List ℚ → List ℚ)))
    (sampleRate : ℚ) (waveforms : Option (List Waveform)) :
    ((channels.length = amplitudes.length ∧ amplitudes.length = offsets.length
        ∧ offsets.length = voltageTransformations.length) →
      ∃ pe, mkProgramEntry loop channels markers amplitudes offsets
          voltageTransformations sampleRate waveforms = some pe)
    ∧ (¬(channels.length = amplitudes.length ∧ amplitudes.length = offsets.length
        ∧ offsets.length = voltageTransformations.length) →
      mkProgramEntry loop channels markers amplitudes offsets
          voltageTransformations sampleRate waveforms = none) := by
  constructor
  · rintro ⟨h1, h2, h3⟩
    have hcond : (channels.length == amplitudes.length
        && amplitudes.length == offsets.length
        && offsets.length == voltageTransformations.length) = true := by
      simp [h1, h2, h3]
    exact ⟨_, by unfold mkProgramEntry; rw [if_pos hcond]⟩
  · intro h
    unfold mkProgramEntry
    rw [if_neg]
    intro hcond
    exact h (by simpa [and_assoc] using hcond)

/-- Witness for C10: with empty channel/amplitude/offset/transformation tuples
and a three-element markers tuple, construction passes the length check. -/
theorem C10_program_entry_length_check_witness :
    ∃ pe, mkProgramEntry (Loop.node []) [] [some "m1", none, some "m2"] [] [] [] 1 none
      = some pe :=
  (C10_program_entry_length_check (Loop.node []) [] [some "m1", none, some "m2"]
    [] [] [] 1 none).1 ⟨rfl, rfl, rfl⟩

/-- The concrete waveform exhibiting the C1 divergence: its channel A samples
are the constant 4. -/
def wfC1 : Waveform :=
  { wfId := 0
    compareKey := 0
    duration := 1
    channels := ["A"]
    getSampled := fun _ ts => ts.map (fun _ => 4) }

/-- C1 evidence: with amplitude 2 and offset 1 the stored sampled array of the
assigned channel slot is the raw sample `[4]` (the source appends a fresh
`waveform.get_sampled(channel, wf_time)` after computing the processed value
into the discarded local `sampled`), while the spec-prescribed processed array
at the same grid is `[3/2]`, and the two differ. -/
theorem C1_sample_waveforms_code_bug :
    sampleWaveforms [some "A"] [] [2] [1] [none] 1 [wfC1]
        = [([some [(4 : ℚ)]], [])]
    ∧ specProcessedSample wfC1 ((getSampleTimes [wfC1] 1).1.take 1) "A" none 2 1
        = [(3 : ℚ)/2]
    ∧ [(4 : ℚ)] ≠ [(3 : ℚ)/2] := by
  have hceil : (Rat.ceil (1 : ℚ)).toNat = 1 := by norm_num [Rat.ceil]
  have hrange : List.range 1 = [0] := rfl
  refine ⟨?_, ?_, by norm_num⟩
  · simp [sampleWaveforms, getSampleTimes, wfC1, hceil, hrange, Function.comp]
  · norm_num [specProcessedSample, getSampleTimes, wfC1, hceil, hrange, Function.comp]

/-- `sampleWaveforms` yields one sampled tuple per waveform. -/
theorem sampleWaveforms_length (channels markers : List (Option String))
    (amplitudes offsets : List ℚ)
    (voltageTransformations : List (Option (List ℚ → List ℚ)))
    (sampleRate : ℚ) (waveforms : List Waveform) :
    (sampleWaveforms channels markers amplitudes offsets voltageTransformations
      sampleRate waveforms).length = waveforms.length := by
  unfold sampleWaveforms getSampleTimes
  simp

/-- First of the two equal-valued but distinct waveform instances for C2: object
identity 1, compare key 7. -/
def wfCexA : Waveform :=
  { wfId := 1
    compareKey := 7
    duration := 1
    channels := ["A"]
    getSampled := fun _ ts => ts.map (fun _ => 0) }

/-- Second instance: a different object (identity 2) with the same compare key 7,
hence equal-valued in the `Comparable` sense. -/
def wfCexB : Waveform :=
  { wfId := 2
    compareKey := 7
    duration := 1
    channels := ["A"]
    getSampled := fun _ ts => ts.map (fun _ => 0) }

/-- The stored waveform keys of a `ProgramEntry` built without an explicit
waveforms argument are the `OrderedDict`-deduplicated loop leaves. -/
theorem mkProgramEntry_none_waveformList (loop : Loop)
    (channels markers : List (Option String)) (amplitudes offsets : List ℚ)
    (voltageTransformations : List (Option (List ℚ → List ℚ)))
    (sampleRate : ℚ) (pe : ProgramEntry)
    (h : mkProgramEntry loop channels markers amplitudes offsets
        voltageTransformations sampleRate none = some pe) :
    pe.waveformList = dedupByCompareKey loop.leafWaveforms := by
  unfold mkProgramEntry at h
  by_cases hcond : (channels.length == amplitudes.length
      && amplitudes.length == offsets.length
      && offsets.length == voltageTransformations.length) = true
  · rw [if_pos hcond] at h
    injection h with h
    subst h
    unfold ProgramEntry.waveformList
    apply List.map_fst_zip
    rw [sampleWaveforms_length]
  · rw [if_neg hcond] at h
    exact Option.noConfusion h

/-- C2 counterexample: a loop whose two leaves are equal-valued but distinct
waveform instances yields a `ProgramEntry` with a single stored entry, not two:
the `OrderedDict` derivation deduplicates by value (compare key) equality, not
by object identity. -/
theorem C2_identity_dedup_counterexample :
    wfCexA.wfId ≠ wfCexB.wfId
    ∧ wfCexA.compareKey = wfCexB.compareKey
    ∧ ∃ pe, mkProgramEntry (Loop.node [Loop.leaf wfCexA, Loop.leaf wfCexB])
          [] [] [] [] [] 1 none = some pe
        ∧ pe.waveformList = [wfCexA] := by
  refine ⟨by decide, rfl, ⟨_, rfl, ?_⟩⟩
  rw [mkProgramEntry_none_waveformList (Loop.node [Loop.leaf wfCexA, Loop.leaf wfCexB])
    [] [] [] [] [] 1 _ rfl]
  simp [Loop.leafWaveforms, Loop.leafWaveformsOfList, dedupByCompareKey, wfCexA, wfCexB]

/-- C2 amended: for every `ProgramEntry` constructed without an explicit
waveforms argument, the stored waveform list is derived from the loop's leaves
by deduplication on waveform value equality (the `Comparable` compare key), not
object identity: it is a sublist of the leaves (first-seen order preserved),
every compare key appears exactly once, and its compare-key sequence is the
first-occurrence deduplication of the leaves' compare-key sequence. -/
theorem C2_value_dedup_amended (loop : Loop) (channels markers : List (Option String))
    (amplitudes offsets : List ℚ)
    (voltageTransformations : List (Option (List ℚ → List ℚ)))
    (sampleRate : ℚ) (pe : ProgramEntry)
    (h : mkProgramEntry loop channels markers amplitudes offsets
        voltageTransformations sampleRate none = some pe) :
    pe.waveformList = dedupByCompareKey loop.leafWaveforms
    ∧ pe.waveformList.Sublist loop.leafWaveforms
    ∧ (pe.waveformList.map (fun w => w.compareKey)).Nodup
    ∧ pe.waveformList.map (fun w => w.compareKey)
        = dedupKeepFirst (loop.leafWaveforms.map (fun w => w.compareKey)) := by
  have hlist := mkProgramEntry_none_waveformList loop channels markers amplitudes
    offsets voltageTransformations sampleRate pe h
  rw [hlist]
  exact ⟨rfl, dedupByCompareKey_sublist _, dedupByCompareKey_keys_nodup _,
    dedupByCompareKey_map_key _⟩

/-- Witness for C2 (amended) at the concrete two-leaf loop. -/
theorem C2_value_dedup_amended_witness :
    ∃ pe, mkProgramEntry (Loop.node [Loop.leaf wfCexA, Loop.leaf wfCexB])
        [] [] [] [] [] 1 none = some pe
      ∧ pe.waveformList
          = dedupByCompareKey (Loop.node [Loop.leaf wfCexA, Loop.leaf wfCexB]).leafWaveforms := by
  refine ⟨_, rfl, ?_⟩
  exact (C2_value_dedup_amended (Loop.node [Loop.leaf wfCexA, Loop.leaf wfCexB])
    [] [] [] [] [] 1 _ rfl).1

/-- Negated boolean containment agrees with non-membership. -/
theorem not_contains_iff (l : List String) (a : String) :
    (!(l.contains a)) = true ↔ a ∉ l := by
  constructor
  · intro h hmem
    rw [(contains_iff_mem l a).mpr hmem] at h
    exact Bool.noConfusion h
  · intro h
    cases hb : l.contains a
    · rfl
    · exact absurd ((contains_iff_mem _ _).mp hb) h

/-- C8: `requires_stop` on the composite is true iff at least one sub-template,
evaluated with its mapped parameter binding, reports true; with every
sub-template reporting false the composite reports false. -/
theorem C8_requires_stop (sts : List RsSubTemplate)
    (parameters : List (String × ℚ)) (conditions : List String) :
    (multiChannelRequiresStop sts parameters conditions = true
      ↔ ∃ st ∈ sts,
          st.requiresStopAt (mapParameters st.paramMapping parameters) conditions = true)
    ∧ ((∀ st ∈ sts,
          st.requiresStopAt (mapParameters st.paramMapping parameters) conditions = false) →
        multiChannelRequiresStop sts parameters conditions = false) := by
  constructor
  · simp [multiChannelRequiresStop, List.any_eq_true]
  · intro hall
    unfold multiChannelRequiresStop
    rw [List.any_eq_false]
    intro st hst
    simp [hall st hst]

/-- A sub-template that always requires a stop, with the parameter mapping
foo = 2 * bar of the test. -/
def rsTrue : RsSubTemplate :=
  { paramMapping := [("foo", fun outer => 2 * ((outer.lookup "bar").getD 0))]
    requiresStopAt := fun _ _ => true }

/-- A sub-template that never requires a stop, with the parameter mapping
foo = rab - 5 of the test. -/
def rsFalse : RsSubTemplate :=
  { paramMapping := [("foo", fun outer => ((outer.lookup "rab").getD 0) - 5)]
    requiresStopAt := fun _ _ => false }

/-- Witness for C8 at the concrete bindings of the tests. -/
theorem C8_requires_stop_witness :
    multiChannelRequiresStop [rsFalse, rsTrue] [("bar", -18/5), ("rab", 1763/50)] [] = true
    ∧ multiChannelRequiresStop [rsFalse] [("bar", -18/5)] [] = false := by
  constructor
  · exact (C8_requires_stop _ _ _).1.mpr ⟨rsTrue, by simp, rfl⟩
  · refine (C8_requires_stop _ _ _).2 (fun st hst => ?_)
    have h := List.mem_singleton.mp hst
    subst h
    rfl

/-- C6: with an explicit external parameter set, construction succeeds iff the
set equals exactly the union of the sub-templates' post-mapping parameter names
plus the constraint-referenced names; a used-but-undeclared name yields the
missing-parameter-declaration error and an extra declared-but-unused name yields
the missing-mapping error. -/
theorem C6_external_parameters (mappedNames constraintNames external : List String) :
    (validateExternalParameters mappedNames constraintNames external = none
      ↔ ((∀ n ∈ mappedNames ++ constraintNames, n ∈ external)
          ∧ (∀ n ∈ external, n ∈ mappedNames ++ constraintNames)))
    ∧ ((∃ n ∈ mappedNames ++ constraintNames, n ∉ external) →
        ∃ m, validateExternalParameters mappedNames constraintNames external
            = some (MCTError.missingParameterDeclaration m)
          ∧ m ∈ mappedNames ++ constraintNames ∧ m ∉ external)
    ∧ ((∀ n ∈ mappedNames ++ constraintNames, n ∈ external) →
       (∃ n ∈ external, n ∉ mappedNames ++ constraintNames) →
        ∃ m, validateExternalParameters mappedNames constraintNames external
            = some (MCTError.missingMapping m)
          ∧ m ∈ external ∧ m ∉ mappedNames ++ constraintNames) := by
  refine ⟨⟨?_, ?_⟩, ?_, ?_⟩
  · intro hnone
    constructor
    · intro n hn
      by_contra hnotin
      have hsome : ((mappedNames ++ constraintNames).find?
          (fun x => !(external.contains x))).isSome := by
        rw [List.find?_isSome]
        exact ⟨n, hn, (not_contains_iff _ _).mpr hnotin⟩
      obtain ⟨m, hm⟩ := Option.isSome_iff_exists.mp hsome
      unfold validateExternalParameters at hnone
      rw [hm] at hnone
      exact Option.noConfusion hnone
    · intro n hn
      by_contra hnotin
      cases hf1 : (mappedNames ++ constraintNames).find?
          (fun x => !(external.contains x)) with
      | some m =>
        unfold validateExternalParameters at hnone
        rw [hf1] at hnone
        exact Option.noConfusion hnone
      | none =>
        have hsome : (external.find?
            (fun x => !((mappedNames ++ constraintNames).contains x))).isSome := by
          rw [List.find?_isSome]
          exact ⟨n, hn, (not_contains_iff _ _).mpr hnotin⟩
        obtain ⟨m, hm⟩ := Option.isSome_iff_exists.mp hsome
        unfold validateExternalParameters at hnone
        rw [hf1, hm] at hnone
        exact Option.noConfusion hnone
  · rintro ⟨h1, h2⟩
    have hf1 : (mappedNames ++ constraintNames).find?
        (fun x => !(external.contains x)) = none := by
      rw [List.find?_eq_none]
      intro x hx
      exact fun hcon => absurd (h1 x hx) ((not_contains_iff _ _).mp hcon)
    have hf2 : external.find?
        (fun x => !((mappedNames ++ constraintNames).contains x)) = none := by
      rw [List.find?_eq_none]
      intro x hx
      exact fun hcon => absurd (h2 x hx) ((not_contains_iff _ _).mp hcon)
    unfold validateExternalParameters
    rw [hf1, hf2]
  · rintro ⟨n, hn, hnotin⟩
    have hsome : ((mappedNames ++ constraintNames).find?
        (fun x => !(external.contains x))).isSome := by
      rw [List.find?_isSome]
      exact ⟨n, hn, (not_contains_iff _ _).mpr hnotin⟩
    obtain ⟨m, hm⟩ := Option.isSome_iff_exists.mp hsome
    have hp := List.find?_some hm
    refine ⟨m, ?_, List.mem_of_find?_eq_some hm, (not_contains_iff _ _).mp hp⟩
    unfold validateExternalParameters
    rw [hm]
  · intro hall
    rintro ⟨n, hn, hnotin⟩
    have hf1 : (mappedNames ++ constraintNames).find?
        (fun x => !(external.contains x)) = none := by
      rw [List.find?_eq_none]
      intro x hx
      exact fun hcon => absurd (hall x hx) ((not_contains_iff _ _).mp hcon)
    have hsome : (external.find?
        (fun x => !((mappedNames ++ constraintNames).contains x))).isSome := by
      rw [List.find?_isSome]
      exact ⟨n, hn, (not_contains_iff _ _).mpr hnotin⟩
    obtain ⟨m, hm⟩ := Option.isSome_iff_exists.mp hsome
    have hp := List.find?_some hm
    refine ⟨m, ?_, List.mem_of_find?_eq_some hm, (not_contains_iff _ _).mp hp⟩
    unfold validateExternalParameters
    rw [hf1, hm]

/-- Witness for C6 at the mapped names a,b / a,c and constraint a smaller d of the
test: the exact set succeeds, dropping b yields the declaration error, adding e
yields the mapping error. -/
theorem C6_external_parameters_witness :
    validateExternalParameters ["a", "b", "a", "c"] ["a", "d"] ["a", "b", "c", "d"] = none
    ∧ (∃ m, validateExternalParameters ["a", "b", "a", "c"] ["a", "d"] ["a", "c", "d"]
          = some (MCTError.missingParameterDeclaration m)
        ∧ m ∈ ["a", "b", "a", "c"] ++ ["a", "d"] ∧ m ∉ ["a", "c", "d"])
    ∧ (∃ m, validateExternalParameters ["a", "b", "a", "c"] ["a", "d"]
            ["a", "b", "c", "d", "e"]
          = some (MCTError.missingMapping m)
        ∧ m ∈ ["a", "b", "c", "d", "e"] ∧ m ∉ ["a", "b", "a", "c"] ++ ["a", "d"]) := by
  refine ⟨?_, ?_, ?_⟩
  · exact (C6_external_parameters _ _ _).1.mpr ⟨by decide, by decide⟩
  · exact (C6_external_parameters _ _ _).2.1 ⟨"b", by decide, by decide⟩
  · exact (C6_external_parameters _ _ _).2.2 (by decide) ⟨"e", by decide, by decide⟩

/-- C4: constructing a `MultiChannelWaveform` from a non-empty list of waveforms
with pairwise-disjoint channel sets and equal duration d succeeds, with
`defined_channels` the union of the components' channel sets and duration d;
any input with two components sharing a channel, or two components of unequal
duration, or the empty input, fails with the value error. -/
theorem C4_multi_channel_waveform_init (ws : List Waveform) (d : ℚ) :
    (ws ≠ [] →
      ws.Pairwise (fun w v => ∀ c ∈ w.channels, c ∉ v.channels) →
      (∀ w ∈ ws, w.duration = d) →
      ∃ m, mkMultiChannelWaveform ws = some m
        ∧ (∀ c, c ∈ m.definedChannels ↔ ∃ w ∈ ws, c ∈ w.channels)
        ∧ m.duration = d)
    ∧ ((∃ i j : Fin ws.length, ∃ c, i ≠ j
          ∧ c ∈ (ws.get i).channels ∧ c ∈ (ws.get j).channels) →
        mkMultiChannelWaveform ws = none)
    ∧ ((∃ w1 ∈ ws, ∃ w2 ∈ ws, w1.duration ≠ w2.duration) →
        mkMultiChannelWaveform ws = none)
    ∧ mkMultiChannelWaveform [] = none := by
  refine ⟨?_, ?_, ?_, rfl⟩
  · intro hne hdisj hdur
    have hempty : ws.isEmpty = false := by
      cases ws
      · exact absurd rfl hne
      · rfl
    have hdisjb : channelsDisjoint ws = true := (channelsDisjoint_iff ws).mpr hdisj
    have hdurb : equalDurations ws = true :=
      (equalDurations_iff ws).mpr
        (fun w hw v hv => (hdur w hw).trans (hdur v hv).symm)
    refine ⟨{ components := ws }, ?_, ?_, ?_⟩
    · simp [mkMultiChannelWaveform, hempty, hdisjb, hdurb]
    · intro c
      simp [MultiChannelWaveform.definedChannels, List.mem_flatMap]
    · cases ws with
      | nil => exact absurd rfl hne
      | cons w t =>
        show MultiChannelWaveform.duration { components := w :: t } = d
        simp only [MultiChannelWaveform.duration, List.head?_cons, Option.map_some,
          Option.getD_some]
        exact hdur w (List.mem_cons_self _ _)
  · rintro ⟨i, j, c, hne, hci, hcj⟩
    have hemp : ws.isEmpty = false := by
      cases ws
      · exact i.elim0
      · rfl
    have hdisjb : channelsDisjoint ws = false := by
      cases hcd : channelsDisjoint ws
      · rfl
      · exact (no_shared_channel_of_pairwise ((channelsDisjoint_iff ws).mp hcd)
          i j hne c hci hcj).elim
    simp [mkMultiChannelWaveform, hemp, hdisjb]
  · rintro ⟨w1, hw1, w2, hw2, hne⟩
    have hemp : ws.isEmpty = false := by
      cases ws
      · cases hw1
      · rfl
    have hdurb : equalDurations ws = false := by
      cases hed : equalDurations ws
      · rfl
      · exact absurd ((equalDurations_iff ws).mp hed w1 hw1 w2 hw2) hne
    cases hcd : channelsDisjoint ws
    · simp [mkMultiChannelWaveform, hemp, hcd]
    · simp [mkMultiChannelWaveform, hemp, hcd, hdurb]

/-- A single-channel waveform on channel A with duration 11/5 (2.2). -/
def dwfA : Waveform :=
  { wfId := 11, compareKey := 101, duration := 11/5, channels := ["A"],
    getSampled := fun _ _ => [] }

/-- A single-channel waveform on channel B with duration 11/5 (2.2). -/
def dwfB : Waveform :=
  { wfId := 12, compareKey := 102, duration := 11/5, channels := ["B"],
    getSampled := fun _ _ => [] }

/-- A single-channel waveform on channel C with duration 23/10 (2.3). -/
def dwfC : Waveform :=
  { wfId := 13, compareKey := 103, duration := 23/10, channels := ["C"],
    getSampled := fun _ _ => [] }

/-- A second waveform on channel A, overlapping with `dwfA`. -/
def dwfA2 : Waveform :=
  { wfId := 14, compareKey := 104, duration := 11/5, channels := ["A"],
    getSampled := fun _ _ => [] }

/-- Witness for C4 mirroring the test: [A, B] with equal duration succeeds;
[A, A] overlaps and fails; [A, C] has unequal durations and fails. -/
theorem C4_multi_channel_waveform_init_witness :
    (∃ m, mkMultiChannelWaveform [dwfA, dwfB] = some m
      ∧ (∀ c, c ∈ m.definedChannels ↔ ∃ w ∈ [dwfA, dwfB], c ∈ w.channels)
      ∧ m.duration = 11/5)
    ∧ mkMultiChannelWaveform [dwfA, dwfA2] = none
    ∧ mkMultiChannelWaveform [dwfA, dwfC] = none := by
  refine ⟨(C4_multi_channel_waveform_init [dwfA, dwfB] (11/5)).1
      (List.cons_ne_nil _ _) ?_ ?_, ?_, ?_⟩
  · constructor
    · intro v hv c hc
      have hv := List.mem_singleton.mp hv
      subst hv
      simp [dwfA] at hc
      subst hc
      simp [dwfB]
    · exact List.pairwise_singleton _ _
  · intro w hw
    rcases List.mem_cons.mp hw with h | h
    · subst h
      rfl
    · have h := List.mem_singleton.mp h
      subst h
      rfl
  · refine (C4_multi_channel_waveform_init [dwfA, dwfA2] (11/5)).2.1
      ⟨⟨0, by decide⟩, ⟨1, by decide⟩, "A", by decide, ?_, ?_⟩
    · simp [dwfA]
    · simp [dwfA2]
  · refine (C4_multi_channel_waveform_init [dwfA, dwfC] (11/5)).2.2.1
      ⟨dwfA, by simp, dwfC, by simp, ?_⟩
    norm_num [dwfA, dwfC]

/-- C3: when the sub-templates' waveforms resolve to different durations under
the given binding, build_sequence emits one `CHANInstruction` with one fresh
sub-block per channel group (in sub-template order, each holding exactly that
sub-template's sequencing request); when the resolved durations are all equal it
emits one `EXECInstruction` whose `MultiChannelWaveform` has compare key equal
to the tuple of the children's compare keys in sub-template order. -/
theorem C3_build_sequence (sts : List STmpl) (parameters : List (String × ℚ)) :
    ((∃ w1 ∈ sts.map (fun st => st.buildWaveform parameters),
        ∃ w2 ∈ sts.map (fun st => st.buildWaveform parameters),
          w1.duration ≠ w2.duration) →
      ∃ cmap, buildSequence sts parameters
          = ([MCInstruction.chanInstruction cmap],
             sts.map (fun st => [(st, parameters)]))
        ∧ cmap.map Prod.fst = sts.map STmpl.definedChannels
        ∧ cmap.map Prod.snd = List.range sts.length)
    ∧ ((∀ w1 ∈ sts.map (fun st => st.buildWaveform parameters),
        ∀ w2 ∈ sts.map (fun st => st.buildWaveform parameters),
          w1.duration = w2.duration) →
      ∃ m, buildSequence sts parameters = ([MCInstruction.execInstruction m], [])
        ∧ m.mcwCompareKey
            = sts.map (fun st => (st.buildWaveform parameters).compareKey)) := by
  constructor
  · rintro ⟨w1, hw1, w2, hw2, hne⟩
    have hdurb : equalDurations (sts.map (fun st => st.buildWaveform parameters))
        = false := by
      cases hed : equalDurations (sts.map (fun st => st.buildWaveform parameters))
      · rfl
      · exact absurd ((equalDurations_iff _).mp hed w1 hw1 w2 hw2) hne
    refine ⟨((List.range sts.length).zip (sts.map STmpl.definedChannels)).map
      (fun p => (p.2, p.1)), ?_, ?_, ?_⟩
    · simp [buildSequence, hdurb]
    · rw [List.map_map]
      exact List.map_snd_zip _ _ (by simp)
    · rw [List.map_map]
      exact List.map_fst_zip _ _ (by simp)
  · intro hall
    have hdurb : equalDurations (sts.map (fun st => st.buildWaveform parameters))
        = true := (equalDurations_iff _).mpr hall
    refine ⟨{ components := sts.map (fun st => st.buildWaveform parameters) }, ?_, ?_⟩
    · simp [buildSequence, hdurb]
    · simp [MultiChannelWaveform.mcwCompareKey, List.map_map]

/-- The waveform of the first test sub-template: duration 12/5 (2.4), channel A. -/
def wfDur24 : Waveform :=
  { wfId := 21, compareKey := 201, duration := 12/5, channels := ["A"],
    getSampled := fun _ _ => [] }

/-- The waveform of the second test sub-template: duration 23/10 (2.3), channel B. -/
def wfDur23 : Waveform :=
  { wfId := 22, compareKey := 202, duration := 23/10, channels := ["B"],
    getSampled := fun _ _ => [] }

/-- A channel-A waveform of duration 23/10, for the equal-duration case. -/
def wfDur23A : Waveform :=
  { wfId := 23, compareKey := 203, duration := 23/10, channels := ["A"],
    getSampled := fun _ _ => [] }

/-- The test's first sub-template on channel group A. -/
def stA : STmpl := { definedChannels := ["A"], buildWaveform := fun _ => wfDur24 }

/-- The test's second sub-template on channel group B. -/
def stB : STmpl := { definedChannels := ["B"], buildWaveform := fun _ => wfDur23 }

/-- A channel-A sub-template with the same duration as `stB`. -/
def stA23 : STmpl := { definedChannels := ["A"], buildWaveform := fun _ => wfDur23A }

/-- Witness for C3 mirroring the two sequencing tests: durations 2.4 and 2.3
branch into a CHANInstruction with per-group sub-blocks, equal durations 2.3
merge into one EXECInstruction with compare key (203, 202). -/
theorem C3_build_sequence_witness :
    (∃ cmap, buildSequence [stA, stB] [("bar", 3)]
        = ([MCInstruction.chanInstruction cmap],
           [[(stA, [("bar", 3)])], [(stB, [("bar", 3)])]])
      ∧ cmap.map Prod.fst = [["A"], ["B"]]
      ∧ cmap.map Prod.snd = [0, 1])
    ∧ (∃ m, buildSequence [stA23, stB] [("bar", 3)]
        = ([MCInstruction.execInstruction m], [])
      ∧ m.mcwCompareKey = [203, 202]) := by
  constructor
  · exact (C3_build_sequence [stA, stB] [("bar", 3)]).1
      ⟨wfDur24, List.mem_cons_self _ _,
       wfDur23, List.mem_cons_of_mem _ (List.mem_cons_self _ _),
       by norm_num [wfDur24, wfDur23]⟩
  · refine (C3_build_sequence [stA23, stB] [("bar", 3)]).2 ?_
    intro w1 hw1 w2 hw2
    rcases List.mem_cons.mp hw1 with h1 | h1
    · rcases List.mem_cons.mp hw2 with h2 | h2
      · rw [h1, h2]
      · have h2 := List.mem_singleton.mp h2
        rw [h1, h2]
        rfl
    · have h1 := List.mem_singleton.mp h1
      rcases List.mem_cons.mp hw2 with h2 | h2
      · rw [h1, h2]
        rfl
      · have h2 := List.mem_singleton.mp h2
        rw [h1, h2]

/-- `sameChannelSet` decides mutual inclusion of two channel lists. -/
theorem sameChannelSet_iff (a b : List String) :
    sameChannelSet a b = true ↔ ((∀ c ∈ a, c ∈ b) ∧ (∀ c ∈ b, c ∈ a)) := by
  unfold sameChannelSet
  rw [Bool.and_eq_true, List.all_eq_true, List.all_eq_true]
  constructor
  · rintro ⟨h1, h2⟩
    exact ⟨fun c hc => (contains_iff_mem _ _).mp (h1 c hc),
      fun c hc => (contains_iff_mem _ _).mp (h2 c hc)⟩
  · rintro ⟨h1, h2⟩
    exact ⟨fun c hc => (contains_iff_mem _ _).mpr (h1 c hc),
      fun c hc => (contains_iff_mem _ _).mpr (h2 c hc)⟩

/-- C5: on a `MultiChannelWaveform` with pairwise-disjoint components,
`get_subset_for_channels` returns the component itself (the same object, not a
copy) when the requested set exactly matches that component's channel set; it
returns a new `MultiChannelWaveform` over exactly the matching components when
the requested set spans several components; and it fails with a not-found error
naming a missing channel when the requested set leaves `defined_channels`. -/
theorem C5_get_subset_for_channels (m : MultiChannelWaveform) (chans : List String)
    (hdisj : m.components.Pairwise (fun w v => ∀ c ∈ w.channels, c ∉ v.channels)) :
    (∀ w ∈ m.components, w.channels ≠ [] →
      sameChannelSet w.channels chans = true →
      m.getSubsetForChannels chans = .ok (.inl w))
    ∧ ((∀ c ∈ chans, c ∈ m.definedChannels) →
       (∃ i j : Fin m.components.length, i ≠ j
          ∧ (∃ c ∈ (m.components.get i).channels, c ∈ chans)
          ∧ (∃ c ∈ (m.components.get j).channels, c ∈ chans)) →
        m.getSubsetForChannels chans
          = .ok (.inr { components :=
              m.components.filter (fun w => w.channels.any (fun c => chans.contains c)) }))
    ∧ ((∃ c ∈ chans, c ∉ m.definedChannels) →
        ∃ c, m.getSubsetForChannels chans = .error c
          ∧ c ∈ chans ∧ c ∉ m.definedChannels) := by
  refine ⟨?_, ?_, ?_⟩
  · intro w hw hne hsame
    obtain ⟨hab, hba⟩ := (sameChannelSet_iff _ _).mp hsame
    have hf1 : chans.find? (fun c => !(m.definedChannels.contains c)) = none := by
      rw [List.find?_eq_none]
      intro c hc
      have hcdef : c ∈ m.definedChannels := by
        unfold MultiChannelWaveform.definedChannels
        exact List.mem_flatMap.mpr ⟨w, hw, hba c hc⟩
      exact fun hcon => absurd hcdef ((not_contains_iff _ _).mp hcon)
    have huniq : ∀ v ∈ m.components, sameChannelSet v.channels chans = true → v = w := by
      intro v hv hsv
      obtain ⟨hvb, hbv⟩ := (sameChannelSet_iff _ _).mp hsv
      obtain ⟨c0, hc0⟩ := List.exists_mem_of_ne_nil w.channels hne
      have hc0v : c0 ∈ v.channels := hbv c0 (hab c0 hc0)
      obtain ⟨iv, hiv⟩ := List.mem_iff_get.mp hv
      obtain ⟨iw, hiw⟩ := List.mem_iff_get.mp hw
      by_cases hij : iv = iw
      · subst hiv
        subst hiw
        rw [hij]
      · exact (no_shared_channel_of_pairwise hdisj iv iw hij c0
          (by rw [hiv]; exact hc0v) (by rw [hiw]; exact hc0)).elim
    have hf2 : m.components.find? (fun v => sameChannelSet v.channels chans) = some w :=
      find?_eq_some_of_unique hw hsame huniq
    unfold MultiChannelWaveform.getSubsetForChannels
    rw [hf1, hf2]
  · rintro hsub ⟨i, j, hij, ⟨ci, hci, hcichans⟩, ⟨cj, hcj, hcjchans⟩⟩
    have hf1 : chans.find? (fun c => !(m.definedChannels.contains c)) = none := by
      rw [List.find?_eq_none]
      intro c hc
      exact fun hcon => absurd (hsub c hc) ((not_contains_iff _ _).mp hcon)
    have hf2 : m.components.find? (fun v => sameChannelSet v.channels chans) = none := by
      rw [List.find?_eq_none]
      intro v hv hcon
      obtain ⟨hvb, hbv⟩ := (sameChannelSet_iff _ _).mp hcon
      obtain ⟨iv, hiv⟩ := List.mem_iff_get.mp hv
      by_cases hiv_i : iv = i
      · exact no_shared_channel_of_pairwise hdisj iv j (by rw [hiv_i]; exact hij) cj
          (by rw [hiv]; exact hbv cj hcjchans) hcj
      · exact no_shared_channel_of_pairwise hdisj iv i hiv_i ci
          (by rw [hiv]; exact hbv ci hcichans) hci
    unfold MultiChannelWaveform.getSubsetForChannels
    rw [hf1, hf2]
  · rintro ⟨c, hc, hnotdef⟩
    have hsome : (chans.find? (fun x => !(m.definedChannels.contains x))).isSome := by
      rw [List.find?_isSome]
      exact ⟨c, hc, (not_contains_iff _ _).mpr hnotdef⟩
    obtain ⟨c0, hc0⟩ := Option.isSome_iff_exists.mp hsome
    have hp := List.find?_some hc0
    refine ⟨c0, ?_, List.mem_of_find?_eq_some hc0, (not_contains_iff _ _).mp hp⟩
    unfold MultiChannelWaveform.getSubsetForChannels
    rw [hc0]

/-- A single-channel waveform on channel C with duration 11/5, completing a
well-formed three-component multi-channel waveform with `dwfA` and `dwfB`. -/
def dwfCeq : Waveform :=
  { wfId := 15, compareKey := 105, duration := 11/5, channels := ["C"],
    getSampled := fun _ _ => [] }

/-- Witness for C5 mirroring the test: on components A, B, C the subset A
returns the A-component itself, the subset A,B returns a new multi-channel
waveform over exactly the A and B components, and the subset A,D fails with a
not-found error. -/
theorem C5_get_subset_for_channels_witness :
    MultiChannelWaveform.getSubsetForChannels
        { components := [dwfA, dwfB, dwfCeq] } ["A"] = .ok (.inl dwfA)
    ∧ MultiChannelWaveform.getSubsetForChannels
        { components := [dwfA, dwfB, dwfCeq] } ["A", "B"]
        = .ok (.inr { components := [dwfA, dwfB] })
    ∧ (∃ c, MultiChannelWaveform.getSubsetForChannels
          { components := [dwfA, dwfB, dwfCeq] } ["A", "D"] = .error c
        ∧ c ∈ ["A", "D"]
        ∧ c ∉ MultiChannelWaveform.definedChannels
            { components := [dwfA, dwfB, dwfCeq] }) := by
  have hdisj : List.Pairwise (fun w v => ∀ c ∈ w.channels, c ∉ v.channels)
      [dwfA, dwfB, dwfCeq] := by decide
  refine ⟨?_, ?_, ?_⟩
  · exact (C5_get_subset_for_channels { components := [dwfA, dwfB, dwfCeq] } ["A"]
      hdisj).1 dwfA (List.mem_cons_self _ _) (by decide) (by decide)
  · exact (C5_get_subset_for_channels { components := [dwfA, dwfB, dwfCeq] } ["A", "B"]
      hdisj).2.1 (by decide)
      ⟨⟨0, by decide⟩, ⟨1, by decide⟩, by decide,
       ⟨"A", by decide, by decide⟩, ⟨"B", by decide, by decide⟩⟩
  · exact (C5_get_subset_for_channels { components := [dwfA, dwfB, dwfCeq] } ["A", "D"]
      hdisj).2.2 ⟨"D", by decide, by decide⟩
